import Mathlib

/-!
Verification of the college-suggester backend core against its specification.

Shallow embedding of the two core modules:
* `app/apis/college_suggestion.py` — the category resolver and cutoff query
  (`get_suggested_colleges`), modelled over an explicit list of cutoff records
  standing for the SQL store;
* `app/utils/branch_normalizer.py` — the `BranchNormalizer` class with its
  static variant table, exact reverse-index lookup and punctuation-insensitive
  fuzzy matching.

Python string operations are modelled on ASCII data (the vocabulary of the
program: category codes, branch names): `str.upper`/`str.lower` map only the
ASCII letter ranges, `str.strip` removes the ASCII whitespace characters that
Python's `str.strip` removes.
-/

namespace CollegeSuggester

/-- ASCII whitespace characters removed by Python `str.strip` and matched by
the regex class `\s` (space, tab, newline, carriage return, vertical tab,
form feed). -/
def isPySpace (c : Char) : Bool :=
  c == ' ' || c == '\t' || c == '\n' || c == '\r' || c == '\x0b' || c == '\x0c'

/-- ASCII model of Python `str.lower` on a single character. -/
def lowChar (c : Char) : Char :=
  if 65 ≤ c.toNat && c.toNat ≤ 90 then Char.ofNat (c.toNat + 32) else c

/-- ASCII model of Python `str.upper` on a single character. -/
def upChar (c : Char) : Char :=
  if 97 ≤ c.toNat && c.toNat ≤ 122 then Char.ofNat (c.toNat - 32) else c

/-- Python `str.lower` (ASCII model). -/
def pyLower (s : String) : String := ⟨s.data.map lowChar⟩

/-- Python `str.upper` (ASCII model). -/
def pyUpper (s : String) : String := ⟨s.data.map upChar⟩

/-- Strip leading and trailing whitespace from a character list
(both-ends `dropWhile`). -/
def stripList (l : List Char) : List Char :=
  ((l.dropWhile isPySpace).reverse.dropWhile isPySpace).reverse

/-- Python `str.strip` with no argument: remove leading and trailing
whitespace. -/
def pyStrip (s : String) : String := ⟨stripList s.data⟩

/-- SQL `LIKE '%pattern%'` / SQLAlchemy `.contains(pattern)` on ordinary
(wildcard-free) patterns: substring containment of `pat` in `hay`. -/
def strContains (hay pat : String) : Bool := decide (pat.data <:+: hay.data)

/-! ## Data model

`Cutoff` carries the columns of the `cutoffs` table that
`get_suggested_colleges` reads (`app/models.py`): `category`, `rank`
(nullable integer), `level`, `branch`.  The store is modelled as a list of
such records; the inner join with `colleges` only restricts the record set
and is absorbed into the modelled list. -/

structure Cutoff where
  category : String
  rank : Option Int
  level : String
  branch : String
deriving Repr, DecidableEq

/-! ## Category resolver (`app/apis/college_suggestion.py`) -/

/-- The seat-type → level-phrase table of `get_suggested_colleges`
(`seat_type_mapping` in the source). -/
def seat_type_mapping : List (String × String) :=
  [("H", "home"), ("O", "other"), ("S", "state"), ("AI", "all india")]

/-- The level filter applied when the normalized seat type is a key of
`seat_type_mapping`; `none` means no level filter is added to the query
(source: `if seat_type in seat_type_mapping: query.filter(...)`). -/
def levelFilter (seat_type : String) : Option String :=
  (seat_type_mapping.find? (fun p => p.1 == seat_type)).map (fun p => p.2)

/-- The seat-type → category-seat-code table (`seat_type_code_mapping` in the
source, an identity table on the four codes). -/
def seat_type_code_mapping : List (String × String) :=
  [("H", "H"), ("O", "O"), ("S", "S"), ("AI", "AI")]

/-- `seat_type_code_mapping.get(seat_type, "S")`: dictionary lookup with
default `"S"`. -/
def seatTypeCode (seat_type : String) : String :=
  ((seat_type_code_mapping.find? (fun p => p.1 == seat_type)).map (fun p => p.2)).getD "S"

/-- The category-pattern construction of `get_suggested_colleges`
(lines 60–133 of `app/apis/college_suggestion.py`), taking the raw request
fields.  `caste`, `gender` and `seat_type` are upper-cased and stripped
exactly as in the source; `special_reservation` is tested for Python
truthiness (`if special_reservation:`) and then only upper-cased
(`special_reservation.upper()`, no strip in the source). -/
def resolvedPatterns (caste gender seat_type : String)
    (special_reservation : Option String) : List String :=
  let caste := pyStrip (pyUpper caste)
  let gender := pyStrip (pyUpper gender)
  let seat_type := pyStrip (pyUpper seat_type)
  let gender_code := if gender = "MALE" then "G" else "L"
  let seat_type_code := seatTypeCode seat_type
  match special_reservation with
  | some s =>
    if s ≠ "" then
      let special_code := pyUpper s
      if special_code = "PWD" then
        ["PWD" ++ caste ++ seat_type_code, "PWDR" ++ caste ++ seat_type_code]
      else if special_code = "DEFENCE" then
        ["DEFR" ++ caste ++ seat_type_code, "DEF" ++ caste ++ seat_type_code]
      else if special_code = "ORPHAN" then
        ["ORPHAN"]
      else if special_code = "TFWS" then
        ["TFWS"]
      else
        [special_code ++ caste ++ seat_type_code]
    else
      [gender_code ++ caste ++ seat_type_code]
  | none => [gender_code ++ caste ++ seat_type_code]

/-- The row predicate accumulated on the query by `get_suggested_colleges`:
`Cutoff.rank >= rank` and `Cutoff.rank.isnot(None)` (a NULL rank satisfies
neither), the level `contains` filter when the seat type is recognized, and
the OR of the `category LIKE '%pattern%'` filters (added only when the
pattern list is non-empty, mirroring `if category_filters:`). -/
def cutoffPred (rank : Int) (seat_norm : String) (patterns : List String)
    (r : Cutoff) : Bool :=
  (match r.rank with
   | some v => decide (rank ≤ v)
   | none => false)
  && (match levelFilter seat_norm with
      | some lf => strContains r.level lf
      | none => true)
  && (patterns.isEmpty || patterns.any (fun p => strContains r.category p))

/-- The Python default of the `limit` parameter of `get_suggested_colleges`. -/
def default_limit : Nat := 20

/-- The `ORDER BY Cutoff.rank ASC` key relation: compare records on their
rank values (NULL ranks are already excluded by the filter). -/
def rankLE (a b : Cutoff) : Prop := a.rank.getD 0 ≤ b.rank.getD 0

instance : DecidableRel rankLE := fun _ _ => Int.decLe _ _

instance : IsTotal Cutoff rankLE := ⟨fun _ _ => Int.le_total _ _⟩

instance : IsTrans Cutoff rankLE := ⟨fun _ _ _ h h2 => le_trans h h2⟩

/-- `get_suggested_colleges` over a modelled store: filter by the accumulated
predicate, order by rank ascending, take `limit` rows. -/
def get_suggested_colleges (db : List Cutoff) (rank : Int)
    (caste gender seat_type : String) (special_reservation : Option String)
    (limit : Nat) : List Cutoff :=
  let seat_norm := pyStrip (pyUpper seat_type)
  let patterns := resolvedPatterns caste gender seat_type special_reservation
  ((db.filter (cutoffPred rank seat_norm patterns)).insertionSort rankLE).take limit

/-- The error named by the specification for profile validation.  The body of
`get_suggested_colleges` contains no `raise` statement and no validation, so
its embedding into the error monad is `Except.ok` of the pure result on every
input. -/
inductive ProfileError where
  | invalidProfile
deriving Repr, DecidableEq

/-- `get_suggested_colleges` embedded in the error monad of the spec's
failure mode: the source raises nothing, so every call returns `ok`. -/
def get_suggested_collegesE (db : List Cutoff) (rank : Int)
    (caste gender seat_type : String) (special_reservation : Option String)
    (limit : Nat) : Except ProfileError (List Cutoff) :=
  Except.ok (get_suggested_colleges db rank caste gender seat_type
    special_reservation limit)

/-! ## Branch normalizer (`app/utils/branch_normalizer.py`) -/

/-- The characters stripped by the fuzzy matcher's first regex,
`re.sub(r'[&(),.-]', ' ', ...)`. -/
def isBranchPunct (c : Char) : Bool :=
  c == '&' || c == '(' || c == ')' || c == ',' || c == '.' || c == '-'

/-- Collapse adjacent spaces: together with mapping every whitespace
character to `' '` first, this models `re.sub(r'\s+', ' ', ...)` (each
maximal whitespace run becomes a single space). -/
def squeezeSpaces : List Char → List Char
  | [] => []
  | [c] => [c]
  | a :: b :: rest =>
    if a == ' ' && b == ' ' then squeezeSpaces (b :: rest)
    else a :: squeezeSpaces (b :: rest)

/-- The cleaning pipeline of `BranchNormalizer._fuzzy_match`: replace the
punctuation class and every whitespace character by a space, collapse
whitespace runs to one space, strip. -/
def cleanStr (s : String) : String :=
  pyStrip ⟨squeezeSpaces (s.data.map
    (fun c => if isBranchPunct c then ' ' else if isPySpace c then ' ' else c))⟩

/-- `BranchNormalizer._fuzzy_match`: clean both strings and compare for
exact equality. -/
def fuzzyMatch (branch_lower variation_lower : String) : Bool :=
  cleanStr branch_lower == cleanStr variation_lower

/-- `BranchNormalizer.branch_mappings`: canonical code → listed variant
spellings, in source order. -/
def branch_mappings : List (String × List String) :=
  [("CSE",
    ["Computer Science and Engineering",
     "Computer Science & Engineering",
     "Computer Engineering",
     "Computer Science",
     "Computer Science and Engineering (Artificial Intelligence)",
     "Computer Science and Engineering (Artificial Intelligence and Data Science)",
     "Computer Science and Engineering(Artificial Intelligence and Machine Learning)",
     "Computer Science and Engineering (Cyber Security)",
     "Computer Science and Engineering(Cyber Security)",
     "Computer Science and Engineering(Data Science)",
     "Computer Science and Engineering (Internet of Things and Cyber Security Including Block Chain",
     "Computer Engineering (Software Engineering)",
     "Computer Science and Business Systems",
     "Computer Science and Design"]),
   ("IT",
    ["Information Technology",
     "Information Technology Engineering",
     "Information Technology and Engineering"]),
   ("ECE",
    ["Electronics and Communication Engineering",
     "Electronics & Communication Engineering",
     "Electronics and Communications Engineering",
     "Electronics and Telecommunication Engineering",
     "Electronics & Telecommunication Engineering",
     "Electronics Engineering"]),
   ("EEE",
    ["Electrical and Electronics Engineering",
     "Electrical & Electronics Engineering",
     "Electrical Engineering"]),
   ("ETC",
    ["Electronics and Telecommunication",
     "Electronics & Telecommunication"]),
   ("ME",
    ["Mechanical Engineering",
     "Mechanical and Automation Engineering",
     "Mechanical & Automation Engineering"]),
   ("CE",
    ["Civil Engineering",
     "Civil and Environmental Engineering",
     "Civil & Environmental Engineering",
     "Civil and infrastructure Engineering",
     "Civil Engineering and Planning"]),
   ("CHE",
    ["Chemical Engineering",
     "Chemical Technology"]),
   ("BT",
    ["Bio Technology",
     "Biotechnology",
     "Bio-Technology"]),
   ("BME",
    ["Bio Medical Engineering",
     "Biomedical Engineering",
     "Bio-Medical Engineering"]),
   ("AE",
    ["Automobile Engineering",
     "Automotive Engineering"]),
   ("AERO",
    ["Aeronautical Engineering",
     "Aerospace Engineering"]),
   ("AGE",
    ["Agricultural Engineering",
     "Agriculture Engineering"]),
   ("AIDS",
    ["Artificial Intelligence and Data Science",
     "Artificial Intelligence & Data Science",
     "AI and Data Science"]),
   ("AIML",
    ["Artificial Intelligence and Machine Learning",
     "Artificial Intelligence & Machine Learning",
     "AI and Machine Learning"]),
   ("DS",
    ["Data Science",
     "Data Science and Engineering"]),
   ("AI",
    ["Artificial Intelligence"]),
   ("AR",
    ["Automation and Robotics",
     "Automation & Robotics",
     "Robotics and Automation"]),
   ("ARCH",
    ["Architecture",
     "Architectural Assistantship"]),
   ("5G",
    ["5G",
     "5G Technology"])]

/-- The `(code, variant)` pairs in the iteration order of the source's
nested `for normalized, variations ... for variation ...` loops. -/
def flatTable : List (String × String) :=
  (branch_mappings.map (fun p => p.2.map (fun v => (p.1, v)))).flatten

/-- The reverse index `full_name_to_normalized` built in
`BranchNormalizer.__init__`: a dict keyed by `variation.lower()`; on a
duplicate key a later insertion overwrites an earlier one, which the fold
reproduces. -/
def full_name_to_normalized (key : String) : Option String :=
  flatTable.foldl (fun acc p => if pyLower p.2 = key then some p.1 else acc) none

/-- `BranchNormalizer.normalize_branch`: empty input is returned as is
(Python truthiness of the string); otherwise exact reverse-index lookup on
the stripped, lower-cased input, then the first fuzzy-matching
`(code, variant)` pair in table order, then the stripped original. -/
def normalize_branch (branch_name : String) : String :=
  if branch_name = "" then branch_name
  else
    let branch_lower := pyLower (pyStrip branch_name)
    match full_name_to_normalized branch_lower with
    | some c => c
    | none =>
      match flatTable.find? (fun p => fuzzyMatch branch_lower (pyLower p.2)) with
      | some p => p.1
      | none => pyStrip branch_name

/-! ## Specification-side definitions

These definitions are written from the wording of the specification and of
the claims (not from the source); the refinement theorems below compare them
with the source-derived definitions above. -/

/-- The pattern list as enumerated by the specification: two `PWD`/`PWDR`
patterns for PWD, two `DEFR`/`DEF` patterns (DEFR first) for DEFENCE, the
literal `ORPHAN` / `TFWS` patterns, `{special_code}{caste}{seat}` for any
other special-reservation string, and the gender-prefixed
`{G|L}{caste}{seat}` pattern when no special reservation is given; dispatch
on the upper-cased special-reservation code, caste/gender/seat normalized. -/
def specClaimPatterns (caste gender seat_type : String)
    (special_reservation : Option String) : List String :=
  let c := pyStrip (pyUpper caste)
  let g := pyStrip (pyUpper gender)
  let seat := seatTypeCode (pyStrip (pyUpper seat_type))
  match special_reservation with
  | none => [(if g = "MALE" then "G" else "L") ++ c ++ seat]
  | some s =>
    if pyUpper s = "PWD" then
      ["PWD" ++ c ++ seat, "PWDR" ++ c ++ seat]
    else if pyUpper s = "DEFENCE" then
      ["DEFR" ++ c ++ seat, "DEF" ++ c ++ seat]
    else if pyUpper s = "ORPHAN" then
      ["ORPHAN"]
    else if pyUpper s = "TFWS" then
      ["TFWS"]
    else
      [pyUpper s ++ c ++ seat]

/-- Spec phase 1: the case-insensitive, trimmed exact lookup against the
known variants (through the reverse index). -/
def specExactLookup (raw : String) : Option String :=
  full_name_to_normalized (pyLower (pyStrip raw))

/-- Spec phase 2: the code of the first `(code, variant)` pair, in table
iteration order, whose variant equals the input after the punctuation-
insensitive cleaning (replace each of `& ( ) , . -` by a space, collapse
whitespace runs, trim) of both sides. -/
def specFuzzyLookup (raw : String) : Option String :=
  (flatTable.find? (fun p =>
    cleanStr (pyLower (pyStrip raw)) == cleanStr (pyLower p.2))).map (fun p => p.1)

/-- The normalization algorithm as the specification words it for non-empty
input: exact lookup first, then the first fuzzy match, then the trimmed
original string. -/
def specNormalizeBranch (raw : String) : String :=
  match specExactLookup raw with
  | some code => code
  | none =>
    match specFuzzyLookup raw with
    | some code => code
    | none => pyStrip raw

/-! ## Sample records (used by the witness theorems) -/

/-- A cutoff record matching a MALE/OPEN/S profile. -/
def rec1 : Cutoff :=
  { category := "GOPENS", rank := some 500, level := "state level seats",
    branch := "Computer Engineering" }

/-- A cutoff record matching a FEMALE/OPEN/S profile. -/
def rec2 : Cutoff :=
  { category := "LOPENS", rank := some 900, level := "state level seats",
    branch := "Mechanical Engineering" }

/-- A small modelled store. -/
def sampleDb : List Cutoff := [rec2, rec1]

/-! ## Helper lemmas -/

theorem dropWhile_dropWhile_self {α : Type} (p : α → Bool) (l : List α) :
    List.dropWhile p (List.dropWhile p l) = List.dropWhile p l := by
  cases h : List.dropWhile p l with
  | nil => simp
  | cons c rest =>
    have hc : p c = false := by
      have hw : List.dropWhile p l ≠ [] := by simp [h]
      have := List.head_dropWhile_not p l hw
      simpa [h] using this
    simp [List.dropWhile_cons, hc]

theorem stripList_idem (l : List Char) : stripList (stripList l) = stripList l := by
  unfold stripList
  cases hc : ((l.dropWhile isPySpace).reverse.dropWhile isPySpace).reverse with
  | nil => simp [hc]
  | cons c u =>
    have hpre :
        ((l.dropWhile isPySpace).reverse.dropWhile isPySpace).reverse <+:
          l.dropWhile isPySpace := by
      have hs :
          (l.dropWhile isPySpace).reverse.dropWhile isPySpace <:+
            (l.dropWhile isPySpace).reverse :=
        List.dropWhile_suffix _
      have h2 := List.reverse_prefix.mpr hs
      simpa using h2
    obtain ⟨t, ht⟩ := hpre
    have han : l.dropWhile isPySpace = c :: (u ++ t) := by rw [← ht, hc]; simp
    have hcfalse : isPySpace c = false := by
      have hw : l.dropWhile isPySpace ≠ [] := by simp [han]
      have hh := List.head_dropWhile_not isPySpace l hw
      simpa [han] using hh
    have h1 : (c :: u).dropWhile isPySpace = c :: u := by
      simp [List.dropWhile_cons, hcfalse]
    rw [h1]
    have h2 : (c :: u).reverse.dropWhile isPySpace = (c :: u).reverse := by
      have hback : (c :: u).reverse = (l.dropWhile isPySpace).reverse.dropWhile isPySpace := by
        rw [← hc]; simp
      rw [hback, dropWhile_dropWhile_self]
    rw [h2]
    simp

theorem pyStrip_idem (s : String) : pyStrip (pyStrip s) = pyStrip s :=
  congrArg String.mk (stripList_idem s.data)

theorem pyStrip_empty : pyStrip "" = "" := rfl

theorem string_mk_eq_empty_iff (l : List Char) : (⟨l⟩ : String) = "" ↔ l = [] := by
  constructor
  · intro h
    exact congrArg String.data h
  · intro h
    rw [h]

theorem pyUpper_eq_empty_iff (s : String) : pyUpper s = "" ↔ s = "" := by
  constructor
  · intro h
    have h2 : s.data.map upChar = [] := (string_mk_eq_empty_iff _).mp h
    have h3 : s.data = [] := List.map_eq_nil_iff.mp h2
    exact String.ext h3
  · intro h
    rw [h]
    rfl

/-- The dictionary lookup can only return a code that appears as a key of the
flattened table. -/
theorem foldl_lookup_mem (k : String) :
    ∀ (l : List (String × String)) (acc : Option String) (c : String),
      l.foldl (fun a p => if pyLower p.2 = k then some p.1 else a) acc = some c →
      acc = some c ∨ c ∈ l.map Prod.fst := by
  intro l
  induction l with
  | nil => intro acc c h; exact Or.inl h
  | cons x xs ih =>
    intro acc c h
    simp only [List.foldl_cons] at h
    rcases ih _ _ h with h2 | h2
    · by_cases hx : pyLower x.2 = k
      · rw [if_pos hx] at h2
        have : x.1 = c := Option.some.inj h2
        exact Or.inr (by simp [← this])
      · rw [if_neg hx] at h2
        exact Or.inl h2
    · exact Or.inr (by simp [h2])

/-- Every canonical code of the table is a fixed point of `normalize_branch`. -/
theorem codes_fixed : ∀ p ∈ flatTable, normalize_branch p.1 = p.1 := by decide

/-- Non-emptiness of the produced pattern list, in every branch of the
resolver. -/
theorem resolvedPatterns_ne_nil (caste gender seat_type : String)
    (special_reservation : Option String) :
    resolvedPatterns caste gender seat_type special_reservation ≠ [] := by
  unfold resolvedPatterns
  cases special_reservation with
  | none => simp
  | some s =>
    by_cases hs : s = ""
    · simp [hs]
    · simp only [hs]
      split_ifs <;> simp

/-- Membership in the query result implies membership in the store and truth
of the accumulated predicate. -/
theorem mem_suggested {db : List Cutoff} {rank : Int}
    {caste gender seat_type : String} {sp : Option String} {lim : Nat}
    {r : Cutoff} (h : r ∈ get_suggested_colleges db rank caste gender seat_type sp lim) :
    r ∈ db ∧
      cutoffPred rank (pyStrip (pyUpper seat_type))
        (resolvedPatterns caste gender seat_type sp) r = true := by
  unfold get_suggested_colleges at h
  have h1 := List.mem_of_mem_take h
  have h2 := (List.perm_insertionSort rankLE _).mem_iff.mp h1
  exact List.mem_filter.mp h2

theorem cutoffPred_parts {rank : Int} {sn : String} {pats : List String}
    {r : Cutoff} (h : cutoffPred rank sn pats r = true) :
    (∃ v, r.rank = some v ∧ rank ≤ v) ∧
      (∀ lf, levelFilter sn = some lf → strContains r.level lf = true) ∧
      (pats ≠ [] → ∃ p ∈ pats, strContains r.category p = true) := by
  unfold cutoffPred at h
  simp only [Bool.and_eq_true] at h
  obtain ⟨⟨hrank, hlevel⟩, hcat⟩ := h
  refine ⟨?_, ?_, ?_⟩
  · cases hr : r.rank with
    | none => rw [hr] at hrank; exact absurd hrank (by simp)
    | some v =>
      rw [hr] at hrank
      exact ⟨v, rfl, of_decide_eq_true hrank⟩
  · intro lf hlf
    rw [hlf] at hlevel
    exact hlevel
  · intro hne
    have hie : pats.isEmpty = false := by
      cases pats with
      | nil => exact absurd rfl hne
      | cons a l => rfl
    rw [hie] at hcat
    simp only [Bool.false_or, List.any_eq_true] at hcat
    exact hcat

/-- Sortedness and length bound of the query result. -/
theorem suggested_sorted_and_short (db : List Cutoff) (rank : Int)
    (caste gender seat_type : String) (sp : Option String) (lim : Nat) :
    (get_suggested_colleges db rank caste gender seat_type sp lim).Pairwise rankLE ∧
      (get_suggested_colleges db rank caste gender seat_type sp lim).length ≤ lim := by
  unfold get_suggested_colleges
  constructor
  · exact List.Pairwise.sublist (List.take_sublist _ _) (List.sorted_insertionSort rankLE _)
  · rw [List.length_take]
    exact min_le_left _ _

/-- One-step evaluation of `normalize_branch` on non-empty input. -/
theorem normalize_branch_eq (s : String) (h : s ≠ "") :
    normalize_branch s =
      match full_name_to_normalized (pyLower (pyStrip s)) with
      | some c => c
      | none =>
        match flatTable.find?
            (fun p => fuzzyMatch (pyLower (pyStrip s)) (pyLower p.2)) with
        | some p => p.1
        | none => pyStrip s := by
  unfold normalize_branch
  rw [if_neg h]

/-- Whatever the two lookup phases return is a key (canonical code) of the
table. -/
theorem lookup_code_mem {k c : String} (h : full_name_to_normalized k = some c) :
    c ∈ flatTable.map Prod.fst := by
  unfold full_name_to_normalized at h
  rcases foldl_lookup_mem k flatTable none c h with h2 | h2
  · exact absurd h2 (by simp)
  · exact h2

/-! ## Claims -/

/-- C1 (counterexample): the claim asserts that `get_suggested_colleges`
fails with `InvalidProfile` whenever caste or seat_type is empty after
upper-casing and trimming.  The source performs no such validation and
contains no raise: on an empty caste the call returns a normal (`ok`)
result, so the claimed implication is false. -/
theorem C1_counterexample :
    ¬ (∀ (db : List Cutoff) (rank : Int) (caste gender seat_type : String)
        (sp : Option String) (lim : Nat),
        (pyStrip (pyUpper caste) = "" ∨ pyStrip (pyUpper seat_type) = "") →
        ∃ e, get_suggested_collegesE db rank caste gender seat_type sp lim =
          Except.error e) := by
  intro h
  obtain ⟨e, he⟩ := h [] 0 "" "MALE" "S" none 20 (Or.inl rfl)
  exact absurd he (by simp [get_suggested_collegesE])

/-- C1 (amended): `get_suggested_colleges` never raises — for every profile,
including one whose caste or seat_type is empty after normalization, the
call returns `ok` of the query result and never an error. -/
theorem C1_never_raises (db : List Cutoff) (rank : Int)
    (caste gender seat_type : String) (sp : Option String) (lim : Nat) :
    get_suggested_collegesE db rank caste gender seat_type sp lim =
      Except.ok (get_suggested_colleges db rank caste gender seat_type sp lim) ∧
      ∀ e, get_suggested_collegesE db rank caste gender seat_type sp lim ≠
        Except.error e := by
  exact ⟨rfl, fun e he => by simp [get_suggested_collegesE] at he⟩

/-- C1 (witness): the never-raises theorem applied to a profile with an
empty caste. -/
theorem C1_witness :
    get_suggested_collegesE [] 0 "" "MALE" "S" none 20 ≠
      Except.error ProfileError.invalidProfile :=
  (C1_never_raises [] 0 "" "MALE" "S" none 20).2 ProfileError.invalidProfile

/-- C2: the resolver's pattern list is never empty, and for every profile
whose special reservation, when present, is non-empty (the empty string is
Python-falsy; see C9), it equals exactly the specification's enumerated
case list. -/
theorem C2_patterns (caste gender seat_type : String) (sp : Option String) :
    resolvedPatterns caste gender seat_type sp ≠ [] ∧
      ((∀ s, sp = some s → s ≠ "") →
        resolvedPatterns caste gender seat_type sp =
          specClaimPatterns caste gender seat_type sp) := by
  refine ⟨resolvedPatterns_ne_nil _ _ _ _, ?_⟩
  intro hs
  cases sp with
  | none => rfl
  | some s =>
    have hne : s ≠ "" := hs s rfl
    simp only [resolvedPatterns, specClaimPatterns, hne, ne_eq,
      not_false_eq_true, if_true]

/-- C2 (witness): the PWD case at a concrete profile. -/
theorem C2_witness :
    resolvedPatterns "SC" "FEMALE" "S" (some "PWD") =
      specClaimPatterns "SC" "FEMALE" "S" (some "PWD") :=
  (C2_patterns "SC" "FEMALE" "S" (some "PWD")).2
    (fun s h => by cases h; decide)

/-- C3: the level filter is the fixed table H→home, O→other, S→state,
AI→all india; outside those four codes no level filter is applied and the
seat code used for pattern assembly defaults to S; when a level filter is
present every returned record contains it as a substring of its level
field. -/
theorem C3_level_filter :
    levelFilter "H" = some "home" ∧ levelFilter "O" = some "other" ∧
      levelFilter "S" = some "state" ∧ levelFilter "AI" = some "all india" ∧
      (∀ st, st ∉ (["H", "O", "S", "AI"] : List String) →
        levelFilter st = none ∧ seatTypeCode st = "S") ∧
      (∀ (db : List Cutoff) (rank : Int) (caste gender seat_type : String)
        (sp : Option String) (lim : Nat) (r : Cutoff) (lf : String),
        r ∈ get_suggested_colleges db rank caste gender seat_type sp lim →
        levelFilter (pyStrip (pyUpper seat_type)) = some lf →
        strContains r.level lf = true) := by
  refine ⟨rfl, rfl, rfl, rfl, ?_, ?_⟩
  · intro st hst
    simp only [List.mem_cons, List.not_mem_nil, or_false, not_or] at hst
    obtain ⟨h1, h2, h3, h4⟩ := hst
    have key : ∀ x : String × String, x ∈ seat_type_mapping ∨ x ∈ seat_type_code_mapping →
        ¬ (x.1 == st) = true := by
      intro x hx
      have hx1 : x.1 = "H" ∨ x.1 = "O" ∨ x.1 = "S" ∨ x.1 = "AI" := by
        rcases hx with hx | hx <;>
          simp only [seat_type_mapping, seat_type_code_mapping, List.mem_cons,
            List.not_mem_nil, or_false] at hx <;>
          rcases hx with h | h | h | h <;> simp [h]
      simp only [beq_iff_eq]
      rcases hx1 with h | h | h | h <;> rw [h]
      · exact fun hh => h1 hh.symm
      · exact fun hh => h2 hh.symm
      · exact fun hh => h3 hh.symm
      · exact fun hh => h4 hh.symm
    constructor
    · have hf : seat_type_mapping.find? (fun p => p.1 == st) = none :=
        List.find?_eq_none.mpr (fun x hx => key x (Or.inl hx))
      simp [levelFilter, hf]
    · have hf : seat_type_code_mapping.find? (fun p => p.1 == st) = none :=
        List.find?_eq_none.mpr (fun x hx => key x (Or.inr hx))
      simp [seatTypeCode, hf]
  · intro db rank caste gender seat_type sp lim r lf hmem hlf
    exact (cutoffPred_parts (mem_suggested hmem).2).2.1 lf hlf

/-- C3 (witness): the theorem applied to the unrecognized seat code "X" and
to a record returned for a concrete S-profile. -/
theorem C3_witness :
    (("X" : String) ∉ (["H", "O", "S", "AI"] : List String) ∧
      levelFilter "X" = none ∧ seatTypeCode "X" = "S") ∧
      (rec1 ∈ get_suggested_colleges sampleDb 100 "open" "male" "s" none 20 ∧
        levelFilter (pyStrip (pyUpper "s")) = some "state" ∧
        strContains rec1.level "state" = true) := by
  have hthm := C3_level_filter
  have hX : ("X" : String) ∉ (["H", "O", "S", "AI"] : List String) := by decide
  have hmem : rec1 ∈ get_suggested_colleges sampleDb 100 "open" "male" "s" none 20 := by
    decide
  have hlf : levelFilter (pyStrip (pyUpper "s")) = some "state" := by decide
  exact ⟨⟨hX, (hthm.2.2.2.2.1 "X" hX).1, (hthm.2.2.2.2.1 "X" hX).2⟩,
    ⟨hmem, hlf,
      hthm.2.2.2.2.2 sampleDb 100 "open" "male" "s" none 20 rec1 "state" hmem hlf⟩⟩

/-- C4 (counterexample): the claim asserts that special_reservation is
upper-cased and trimmed, so that " pwd " yields the same patterns as "PWD".
The source only upper-cases it (`special_reservation.upper()`, no strip), so
" pwd " falls into the generic other-reservation branch and the two pattern
lists differ. -/
theorem C4_counterexample :
    resolvedPatterns "OPEN" "FEMALE" "S" (some " pwd ") ≠
      resolvedPatterns "OPEN" "FEMALE" "S" (some "PWD") := by decide

/-- C4 (amended): caste, gender and seat_type are used only through their
upper-cased, trimmed forms; special_reservation is used only through its
upper-cased (not trimmed) form. -/
theorem C4_normalization (c c2 g g2 st st2 s s2 : String)
    (hc : pyStrip (pyUpper c) = pyStrip (pyUpper c2))
    (hg : pyStrip (pyUpper g) = pyStrip (pyUpper g2))
    (hst : pyStrip (pyUpper st) = pyStrip (pyUpper st2))
    (hs : pyUpper s = pyUpper s2) :
    resolvedPatterns c g st (some s) = resolvedPatterns c2 g2 st2 (some s2) ∧
      resolvedPatterns c g st none = resolvedPatterns c2 g2 st2 none ∧
      ∀ (db : List Cutoff) (rank : Int) (lim : Nat),
        get_suggested_colleges db rank c g st (some s) lim =
          get_suggested_colleges db rank c2 g2 st2 (some s2) lim ∧
        get_suggested_colleges db rank c g st none lim =
          get_suggested_colleges db rank c2 g2 st2 none lim := by
  have hemp : s = "" ↔ s2 = "" := by
    constructor
    · intro h
      rw [h] at hs
      exact (pyUpper_eq_empty_iff s2).mp hs.symm
    · intro h
      rw [h] at hs
      exact (pyUpper_eq_empty_iff s).mp hs
  have hsome : resolvedPatterns c g st (some s) = resolvedPatterns c2 g2 st2 (some s2) := by
    by_cases h0 : s = ""
    · have h02 : s2 = "" := hemp.mp h0
      simp only [resolvedPatterns, h0, h02, ne_eq, not_true_eq_false, if_false,
        hc, hg, hst]
    · have h02 : s2 ≠ "" := fun hh => h0 (hemp.mpr hh)
      simp only [resolvedPatterns, h0, h02, ne_eq, not_false_eq_true, if_true,
        hc, hst, hs]
  have hnone : resolvedPatterns c g st none = resolvedPatterns c2 g2 st2 none := by
    simp only [resolvedPatterns, hc, hg, hst]
  refine ⟨hsome, hnone, ?_⟩
  intro db rank lim
  constructor
  · simp only [get_suggested_colleges, hst, hsome]
  · simp only [get_suggested_colleges, hst, hnone]

/-- C4 (witness): the amended normalization theorem at a concrete profile
with untrimmed, lower-cased caste/gender/seat and a lower-cased (but
trimmed) special reservation. -/
theorem C4_witness :
    resolvedPatterns " open " "male" " s" (some "pwd") =
      resolvedPatterns "OPEN" "MALE" "S" (some "PWD") :=
  (C4_normalization " open " "OPEN" "male" "MALE" " s" "S" "pwd" "PWD"
    (by decide) (by decide) (by decide) (by decide)).1

/-- C5: every record returned by `get_suggested_colleges` has a non-null
rank at least the requested rank, contains one of the produced category
patterns as a substring, and contains the level filter as a substring when
one is present; the result is sorted by rank ascending and holds at most
`limit` records, the source default of `limit` being 20. -/
theorem C5_query_contract (db : List Cutoff) (rank : Int)
    (caste gender seat_type : String) (sp : Option String) (lim : Nat) :
    (∀ r, r ∈ get_suggested_colleges db rank caste gender seat_type sp lim →
      r.rank ≠ none ∧
        (∀ v, r.rank = some v → rank ≤ v) ∧
        (∃ p ∈ resolvedPatterns caste gender seat_type sp,
          strContains r.category p = true) ∧
        (∀ lf, levelFilter (pyStrip (pyUpper seat_type)) = some lf →
          strContains r.level lf = true)) ∧
      (get_suggested_colleges db rank caste gender seat_type sp lim).Pairwise rankLE ∧
      (get_suggested_colleges db rank caste gender seat_type sp lim).length ≤ lim ∧
      default_limit = 20 := by
  refine ⟨?_, (suggested_sorted_and_short db rank caste gender seat_type sp lim).1,
    (suggested_sorted_and_short db rank caste gender seat_type sp lim).2, rfl⟩
  intro r hr
  obtain ⟨⟨v, hv, hvle⟩, hlev, hcat⟩ := cutoffPred_parts (mem_suggested hr).2
  refine ⟨by simp [hv], ?_, ?_, hlev⟩
  · intro w hw
    rw [hv] at hw
    exact (Option.some.inj hw) ▸ hvle
  · exact hcat (resolvedPatterns_ne_nil _ _ _ _)

/-- C5 (witness): the query contract applied to a concrete store and
profile, at the record the query returns. -/
theorem C5_witness :
    rec1 ∈ get_suggested_colleges sampleDb 100 "open" "male" "s" none 20 ∧
      rec1.rank ≠ none ∧
      (∀ v, rec1.rank = some v → (100 : Int) ≤ v) ∧
      (∃ p ∈ resolvedPatterns "open" "male" "s" none,
        strContains rec1.category p = true) ∧
      (get_suggested_colleges sampleDb 100 "open" "male" "s" none 20).Pairwise rankLE := by
  have h := C5_query_contract sampleDb 100 "open" "male" "s" none 20
  have hm : rec1 ∈ get_suggested_colleges sampleDb 100 "open" "male" "s" none 20 := by
    decide
  obtain ⟨h1, h2, h3, h4⟩ := h.1 rec1 hm
  exact ⟨hm, h1, h2, h3, h.2.1⟩

/-- C6 (counterexample): the claim asserts `normalize_branch` returns every
whitespace-only input unchanged, in particular normalize("   ") = "   ".
Only the empty string is Python-falsy: "   " passes the truthiness guard,
fails both lookup phases and is returned stripped, i.e. as "". -/
theorem C6_counterexample :
    normalize_branch "   " = "" ∧ ("   " : String) ≠ "" := by
  constructor
  · decide
  · decide

/-- C6 (amended): `normalize_branch` returns the empty string unchanged, and
every whitespace-only input — empty or not — is returned trimmed to the
empty string (not unchanged). -/
theorem C6_blank_input (s : String) (h : pyStrip s = "") :
    normalize_branch s = "" := by
  by_cases h0 : s = ""
  · rw [h0]
    rfl
  · rw [normalize_branch_eq s h0, h]
    have hlow : pyLower "" = "" := rfl
    rw [hlow]
    have hlook : full_name_to_normalized "" = none := by decide
    have hfind :
        flatTable.find? (fun p => fuzzyMatch "" (pyLower p.2)) = none := by decide
    rw [hlook, hfind]

/-- C6 (witness): the amended theorem at the whitespace-only input. -/
theorem C6_witness : pyStrip "   " = "" ∧ normalize_branch "   " = "" :=
  ⟨by decide, C6_blank_input "   " (by decide)⟩

/-- C7: for every non-empty input, `normalize_branch` computes exactly the
spec's two-phase algorithm: trimmed case-insensitive exact lookup first,
then the first fuzzy-matching (code, variant) pair in table iteration order
under the punctuation-insensitive cleaning, then the trimmed original
string; it is a total function (never raises). -/
theorem C7_two_phase (s : String) (h : s ≠ "") :
    normalize_branch s = specNormalizeBranch s := by
  rw [normalize_branch_eq s h]
  unfold specNormalizeBranch specExactLookup specFuzzyLookup
  cases hl : full_name_to_normalized (pyLower (pyStrip s)) with
  | some c => rfl
  | none =>
    simp only [fuzzyMatch]
    cases hf : flatTable.find?
        (fun p => cleanStr (pyLower (pyStrip s)) == cleanStr (pyLower p.2)) with
    | some p => simp [hf]
    | none => simp [hf]

/-- C7 (witness): the two-phase theorem at a fuzzy-matched input. -/
theorem C7_witness :
    normalize_branch "Computer Science & Engineering" =
      specNormalizeBranch "Computer Science & Engineering" :=
  C7_two_phase "Computer Science & Engineering" (by decide)

/-- C8: every listed variant text normalizes to its own canonical code — the
round trip through the table holds for each (code, variant) pair. -/
theorem C8_roundtrip : ∀ p ∈ flatTable, normalize_branch p.2 = p.1 := by decide

/-- C8 (witness): the round trip at a concrete pair. -/
theorem C8_witness :
    ("CSE", "Computer Science and Engineering") ∈ flatTable ∧
      normalize_branch "Computer Science and Engineering" = "CSE" :=
  ⟨by decide,
    C8_roundtrip ("CSE", "Computer Science and Engineering") (by decide)⟩

/-- C9: an empty special_reservation string is Python-falsy and is treated
exactly like an absent reservation — the resolver produces the single
gender-prefixed pattern, not an other-reservation pattern with an empty
code. -/
theorem C9_empty_special (caste gender seat_type : String) :
    resolvedPatterns caste gender seat_type (some "") =
        resolvedPatterns caste gender seat_type none ∧
      resolvedPatterns caste gender seat_type (some "") =
        [(if pyStrip (pyUpper gender) = "MALE" then "G" else "L") ++
          pyStrip (pyUpper caste) ++ seatTypeCode (pyStrip (pyUpper seat_type))] := by
  constructor
  · simp [resolvedPatterns]
  · simp [resolvedPatterns]

/-- C10: `normalize_branch` is idempotent: canonical codes are fixed points
and the trimmed fallback re-normalizes to itself. -/
theorem C10_idempotent (s : String) :
    normalize_branch (normalize_branch s) = normalize_branch s := by
  have hcode : ∀ c, c ∈ flatTable.map Prod.fst → normalize_branch c = c := by
    intro c hc
    obtain ⟨p, hp, hpc⟩ := List.mem_map.mp hc
    exact hpc ▸ codes_fixed p hp
  by_cases h0 : s = ""
  · rw [h0]
    rfl
  · rw [normalize_branch_eq s h0]
    cases hl : full_name_to_normalized (pyLower (pyStrip s)) with
    | some c => exact hcode c (lookup_code_mem hl)
    | none =>
      cases hf : flatTable.find?
          (fun p => fuzzyMatch (pyLower (pyStrip s)) (pyLower p.2)) with
      | some p =>
        exact hcode p.1 (List.mem_map.mpr ⟨p, List.mem_of_find?_eq_some hf, rfl⟩)
      | none =>
        by_cases h1 : pyStrip s = ""
        · rw [h1]
          rfl
        · rw [normalize_branch_eq (pyStrip s) h1, pyStrip_idem, hl, hf]

end CollegeSuggester
